import Mathlib

/-!
Verification of the tapyrus-token-registry derivation and validation scripts.

The development shallowly embeds the JavaScript sources of the repository:
`scripts/register-token.js` (first revision: `sha256`, `doubleSha256`,
`hash160`, `computeP2CPubkey`, `deriveColorId`, `verifyColorId`,
`parseIssueBody`, `validateMetadata` and their helpers), the revision that
performs the on-chain OutPoint cross-check, and the revision kept as
`src/unnamed/part_001` (`buildMetadata`).  Bytes are `Nat` values below 256,
machine words are `Nat` values reduced modulo `2 ^ 32`, and JavaScript
exceptions are `Except String`.
-/

namespace TokenRegistry

/-! ## Byte and string utilities -/

/-- The set of characters matched by the JavaScript `\s` class and removed by
`String.prototype.trim` (ASCII whitespace, NBSP, BOM and the Unicode space
separators). -/
def jsIsWs (c : Char) : Bool :=
  c = ' ' || c = '\t' || c = '\n' || c.toNat = 11 || c.toNat = 12 || c = '\r' ||
  c.toNat = 160 || c.toNat = 0x1680 || (0x2000 ≤ c.toNat && c.toNat ≤ 0x200A) ||
  c.toNat = 0x2028 || c.toNat = 0x2029 || c.toNat = 0x202F || c.toNat = 0x205F ||
  c.toNat = 0x3000 || c.toNat = 0xFEFF

/-- JavaScript line terminators (the characters `.` does not match in a
regular expression without the `s` flag). -/
def jsIsLineTerm (c : Char) : Bool :=
  c = '\n' || c = '\r' || c.toNat = 0x2028 || c.toNat = 0x2029

def trimLeftChars (l : List Char) : List Char := l.dropWhile jsIsWs

def trimRightChars (l : List Char) : List Char := (l.reverse.dropWhile jsIsWs).reverse

/-- `String.prototype.trim`. -/
def jsTrim (s : String) : String := String.mk (trimRightChars (trimLeftChars s.data))

/-- `String.prototype.toLowerCase`, restricted to the ASCII range used by the
scripts (hex strings, color ids and field names). -/
def jsToLower (s : String) : String := String.mk (s.data.map Char.toLower)

/-- `String.prototype.substring(0, n)` (count in code points; all inputs used
by the scripts are in the basic plane). -/
def strTakeChars (n : Nat) (s : String) : String := String.mk (s.data.take n)

/-- Drop the first `n` characters of a string. -/
def strDropChars (n : Nat) (s : String) : String := String.mk (s.data.drop n)

/-- UTF-8 encoding of a single character, as byte values. -/
def utf8EncChar (c : Char) : List Nat :=
  let v := c.toNat
  if v < 0x80 then [v]
  else if v < 0x800 then [0xC0 + v / 64, 0x80 + v % 64]
  else if v < 0x10000 then [0xE0 + v / 4096, 0x80 + v / 64 % 64, 0x80 + v % 64]
  else [0xF0 + v / 262144, 0x80 + v / 4096 % 64, 0x80 + v / 64 % 64, 0x80 + v % 64]

/-- UTF-8 encoding of a string (`Buffer.from(s, 'utf8')`). -/
def utf8Bytes (s : String) : List Nat := s.data.flatMap utf8EncChar

/-- The lower-case hex digit for a nibble. -/
def hexDigitChar (n : Nat) : Char :=
  match n with
  | 0 => '0' | 1 => '1' | 2 => '2' | 3 => '3' | 4 => '4'
  | 5 => '5' | 6 => '6' | 7 => '7' | 8 => '8' | 9 => '9'
  | 10 => 'a' | 11 => 'b' | 12 => 'c' | 13 => 'd' | 14 => 'e'
  | _ => 'f'

/-- The two hex digits of one byte, then the encoding of the rest. -/
def hexPairs : List Nat → List Char
  | [] => []
  | b :: tl => hexDigitChar (b / 16 % 16) :: hexDigitChar (b % 16) :: hexPairs tl

/-- `Buffer.prototype.toString('hex')`: lower-case hex encoding of bytes. -/
def hexEncBytes (bs : List Nat) : String := String.mk (hexPairs bs)

/-- Numeric value of a hex digit, upper or lower case. -/
def hexCharVal (c : Char) : Option Nat :=
  let n := c.toNat
  if 48 ≤ n && n ≤ 57 then some (n - 48)
  else if 97 ≤ n && n ≤ 102 then some (n - 87)
  else if 65 ≤ n && n ≤ 70 then some (n - 55)
  else none

def hexDecodeAux : List Char → List Nat
  | c0 :: c1 :: rest =>
    match hexCharVal c0, hexCharVal c1 with
    | some hi, some lo => (hi * 16 + lo) :: hexDecodeAux rest
    | _, _ => []
  | _ => []

/-- `Buffer.from(s, 'hex')`: Node decodes hex pairs and truncates at the first
invalid pair (a trailing odd digit is dropped). -/
def hexDecode (s : String) : List Nat := hexDecodeAux s.data

/-- Big-endian bytes of `n`, zero-padded to exactly `len` bytes. -/
def natToBeBytes : Nat → Nat → List Nat
  | 0, _ => []
  | k + 1, n => natToBeBytes k (n / 256) ++ [n % 256]

/-- Interpret bytes as a big-endian natural number. -/
def beBytesToNat (bs : List Nat) : Nat := bs.foldl (fun acc b => acc * 256 + b) 0

theorem natToBeBytes_length (k n : Nat) : (natToBeBytes k n).length = k := by
  induction k generalizing n with
  | zero => rfl
  | succ k ih => simp [natToBeBytes, ih]

/-! ## SHA-256 (FIPS 180-4), over byte lists -/

/-- Reduce modulo `2 ^ 32`. -/
def m32 (x : Nat) : Nat := x % 4294967296

/-- Right rotation of a 32-bit word (input assumed below `2 ^ 32`). -/
def rotr32 (n x : Nat) : Nat := x / 2 ^ n + x % 2 ^ n * 2 ^ (32 - n)

def shaCh (e f g : Nat) : Nat := (e &&& f) ^^^ ((4294967295 ^^^ e) &&& g)

def shaMaj (a b c : Nat) : Nat := (a &&& b) ^^^ (a &&& c) ^^^ (b &&& c)

def bigSig0 (x : Nat) : Nat := rotr32 2 x ^^^ rotr32 13 x ^^^ rotr32 22 x

def bigSig1 (x : Nat) : Nat := rotr32 6 x ^^^ rotr32 11 x ^^^ rotr32 25 x

def smallSig0 (x : Nat) : Nat := rotr32 7 x ^^^ rotr32 18 x ^^^ x / 2 ^ 3

def smallSig1 (x : Nat) : Nat := rotr32 17 x ^^^ rotr32 19 x ^^^ x / 2 ^ 10

/-- The SHA-256 round constants. -/
def sha256K : List Nat :=
  [
   1116352408, 1899447441, 3049323471, 3921009573, 961987163, 1508970993,
   2453635748, 2870763221, 3624381080, 310598401, 607225278, 1426881987,
   1925078388, 2162078206, 2614888103, 3248222580, 3835390401, 4022224774,
   264347078, 604807628, 770255983, 1249150122, 1555081692, 1996064986,
   2554220882, 2821834349, 2952996808, 3210313671, 3336571891, 3584528711,
   113926993, 338241895, 666307205, 773529912, 1294757372, 1396182291,
   1695183700, 1986661051, 2177026350, 2456956037, 2730485921, 2820302411,
   3259730800, 3345764771, 3516065817, 3600352804, 4094571909, 275423344,
   430227734, 506948616, 659060556, 883997877, 958139571, 1322822218,
   1537002063, 1747873779, 1955562222, 2024104815, 2227730452, 2361852424,
   2428436474, 2756734187, 3204031479, 3329325298]

/-- The eight working variables of the compression function. -/
structure Hash8 where
  a : Nat
  b : Nat
  c : Nat
  d : Nat
  e : Nat
  f : Nat
  g : Nat
  h : Nat

def sha256Init : Hash8 :=
  ⟨1779033703, 3144134277, 1013904242, 2773480762,
   1359893119, 2600822924, 528734635, 1541459225⟩

/-- Group bytes into big-endian 32-bit words. -/
def beWords : List Nat → List Nat
  | b0 :: b1 :: b2 :: b3 :: rest => (((b0 * 256 + b1) * 256 + b2) * 256 + b3) :: beWords rest
  | _ => []

/-- Extend the 16 message words: the accumulator holds the words produced so
far, most recent first; `fuel` is the number of words still to produce. -/
def sha256Extend : Nat → List Nat → List Nat
  | 0, acc => acc
  | k + 1, acc =>
    let nw := m32 (smallSig1 (acc.getD 1 0) + acc.getD 6 0 +
      smallSig0 (acc.getD 14 0) + acc.getD 15 0)
    sha256Extend k (nw :: acc)

/-- One round of the SHA-256 compression function. -/
def sha256Round (st : Hash8) (kw : Nat × Nat) : Hash8 :=
  let t1 := st.h + bigSig1 st.e + shaCh st.e st.f st.g + kw.1 + kw.2
  let t2 := bigSig0 st.a + shaMaj st.a st.b st.c
  ⟨m32 (t1 + t2), st.a, st.b, st.c, m32 (st.d + t1), st.e, st.f, st.g⟩

/-- Process one 64-byte block. -/
def sha256Compress (hv : Hash8) (block : List Nat) : Hash8 :=
  let ws := (sha256Extend 48 (beWords block).reverse).reverse
  let st := (sha256K.zip ws).foldl sha256Round hv
  ⟨m32 (hv.a + st.a), m32 (hv.b + st.b), m32 (hv.c + st.c), m32 (hv.d + st.d),
   m32 (hv.e + st.e), m32 (hv.f + st.f), m32 (hv.g + st.g), m32 (hv.h + st.h)⟩

/-- Process the padded message 64 bytes at a time; `fuel` bounds the number of
blocks and is taken to be the full byte length, which always suffices. -/
def sha256Blocks : Nat → Hash8 → List Nat → Hash8
  | 0, hv, _ => hv
  | _, hv, [] => hv
  | k + 1, hv, bs => sha256Blocks k (sha256Compress hv (bs.take 64)) (bs.drop 64)

/-- SHA-256 padding: `0x80`, zeros to 56 mod 64, then the 64-bit big-endian
bit length. -/
def sha256Pad (msg : List Nat) : List Nat :=
  let l := msg.length
  let z := (120 - (l + 1) % 64) % 64
  msg ++ [128] ++ List.replicate z 0 ++ natToBeBytes 8 (8 * l)

def hash8Bytes (hv : Hash8) : List Nat :=
  natToBeBytes 4 hv.a ++ natToBeBytes 4 hv.b ++ natToBeBytes 4 hv.c ++ natToBeBytes 4 hv.d ++
  natToBeBytes 4 hv.e ++ natToBeBytes 4 hv.f ++ natToBeBytes 4 hv.g ++ natToBeBytes 4 hv.h

/-- `sha256(data)` from `register-token.js`: the SHA-256 digest, 32 bytes. -/
def sha256 (msg : List Nat) : List Nat :=
  let padded := sha256Pad msg
  hash8Bytes (sha256Blocks padded.length sha256Init padded)

/-- `doubleSha256(data)` from `register-token.js`. -/
def doubleSha256 (msg : List Nat) : List Nat := sha256 (sha256 msg)

theorem sha256_length (msg : List Nat) : (sha256 msg).length = 32 := by
  simp [sha256, hash8Bytes, natToBeBytes_length]

/-! ## RIPEMD-160, over byte lists -/

/-- Little-endian bytes of `n`, exactly `len` bytes. -/
def natToLeBytes : Nat → Nat → List Nat
  | 0, _ => []
  | k + 1, n => n % 256 :: natToLeBytes k (n / 256)

/-- Left rotation of a 32-bit word (input assumed below `2 ^ 32`). -/
def rotl32 (n x : Nat) : Nat := x % 2 ^ (32 - n) * 2 ^ n + x / 2 ^ (32 - n)

/-- Group bytes into little-endian 32-bit words. -/
def leWords : List Nat → List Nat
  | b0 :: b1 :: b2 :: b3 :: rest => (((b3 * 256 + b2) * 256 + b1) * 256 + b0) :: leWords rest
  | _ => []

/-- The five RIPEMD-160 round functions, selected by the step index. -/
def rmdF (j x y z : Nat) : Nat :=
  if j < 16 then x ^^^ y ^^^ z
  else if j < 32 then (x &&& y) ||| ((4294967295 ^^^ x) &&& z)
  else if j < 48 then (x ||| (4294967295 ^^^ y)) ^^^ z
  else if j < 64 then (x &&& z) ||| (y &&& (4294967295 ^^^ z))
  else x ^^^ (y ||| (4294967295 ^^^ z))

def rmdRl : List Nat :=
  [0, 1, 2, 3, 4, 5, 6, 7, 8, 9, 10, 11, 12, 13, 14, 15,
   7, 4, 13, 1, 10, 6, 15, 3, 12, 0, 9, 5, 2, 14, 11, 8,
   3, 10, 14, 4, 9, 15, 8, 1, 2, 7, 0, 6, 13, 11, 5, 12,
   1, 9, 11, 10, 0, 8, 12, 4, 13, 3, 7, 15, 14, 5, 6, 2,
   4, 0, 5, 9, 7, 12, 2, 10, 14, 1, 3, 8, 11, 6, 15, 13]

def rmdRr : List Nat :=
  [5, 14, 7, 0, 9, 2, 11, 4, 13, 6, 15, 8, 1, 10, 3, 12,
   6, 11, 3, 7, 0, 13, 5, 10, 14, 15, 8, 12, 4, 9, 1, 2,
   15, 5, 1, 3, 7, 14, 6, 9, 11, 8, 12, 2, 10, 0, 4, 13,
   8, 6, 4, 1, 3, 11, 15, 0, 5, 12, 2, 13, 9, 7, 10, 14,
   12, 15, 10, 4, 1, 5, 8, 7, 6, 2, 13, 14, 0, 3, 9, 11]

def rmdSl : List Nat :=
  [11, 14, 15, 12, 5, 8, 7, 9, 11, 13, 14, 15, 6, 7, 9, 8,
   7, 6, 8, 13, 11, 9, 7, 15, 7, 12, 15, 9, 11, 7, 13, 12,
   11, 13, 6, 7, 14, 9, 13, 15, 14, 8, 13, 6, 5, 12, 7, 5,
   11, 12, 14, 15, 14, 15, 9, 8, 9, 14, 5, 6, 8, 6, 5, 12,
   9, 15, 5, 11, 6, 8, 13, 12, 5, 12, 13, 14, 11, 8, 5, 6]

def rmdSr : List Nat :=
  [8, 9, 9, 11, 13, 15, 15, 5, 7, 7, 8, 11, 14, 14, 12, 6,
   9, 13, 15, 7, 12, 8, 9, 11, 7, 7, 12, 7, 6, 15, 13, 11,
   9, 7, 15, 11, 8, 6, 6, 14, 12, 13, 5, 14, 13, 13, 7, 5,
   15, 5, 8, 11, 14, 14, 6, 14, 6, 9, 12, 9, 12, 5, 15, 8,
   8, 5, 12, 9, 12, 5, 14, 6, 8, 13, 6, 5, 15, 13, 11, 11]

def rmdKl : List Nat := [0, 1518500249, 1859775393, 2400959708, 2840853838]

def rmdKr : List Nat := [1352829926, 1548603684, 1836072691, 2053994217, 0]

/-- The five working variables of the RIPEMD-160 compression function. -/
structure Reg5 where
  a : Nat
  b : Nat
  c : Nat
  d : Nat
  e : Nat

def rmdInit : Reg5 := ⟨1732584193, 4023233417, 2562383102, 271733878, 3285377520⟩

/-- One step of a RIPEMD-160 line (`isRight` selects the right line). -/
def rmdStep (xs : List Nat) (isRight : Bool) (st : Reg5) (j : Nat) : Reg5 :=
  let ri := (if isRight then rmdRr else rmdRl).getD j 0
  let si := (if isRight then rmdSr else rmdSl).getD j 0
  let k := (if isRight then rmdKr else rmdKl).getD (j / 16) 0
  let fv := rmdF (if isRight then 79 - j else j) st.b st.c st.d
  let t := m32 (rotl32 si (m32 (st.a + fv + xs.getD ri 0 + k)) + st.e)
  ⟨st.e, t, st.b, rotl32 10 st.c, st.d⟩

/-- Process one 64-byte block. -/
def rmdCompress (hv : Reg5) (block : List Nat) : Reg5 :=
  let xs := leWords block
  let l := (List.range 80).foldl (rmdStep xs false) hv
  let r := (List.range 80).foldl (rmdStep xs true) hv
  ⟨m32 (hv.b + l.c + r.d), m32 (hv.c + l.d + r.e), m32 (hv.d + l.e + r.a),
   m32 (hv.e + l.a + r.b), m32 (hv.a + l.b + r.c)⟩

def rmdBlocks : Nat → Reg5 → List Nat → Reg5
  | 0, hv, _ => hv
  | _, hv, [] => hv
  | k + 1, hv, bs => rmdBlocks k (rmdCompress hv (bs.take 64)) (bs.drop 64)

/-- RIPEMD-160 padding: like SHA-256 but with a little-endian bit length. -/
def rmdPad (msg : List Nat) : List Nat :=
  let l := msg.length
  let z := (120 - (l + 1) % 64) % 64
  msg ++ [128] ++ List.replicate z 0 ++ natToLeBytes 8 (8 * l)

def reg5Bytes (hv : Reg5) : List Nat :=
  natToLeBytes 4 hv.a ++ natToLeBytes 4 hv.b ++ natToLeBytes 4 hv.c ++
  natToLeBytes 4 hv.d ++ natToLeBytes 4 hv.e

/-- The RIPEMD-160 digest, 20 bytes. -/
def ripemd160 (msg : List Nat) : List Nat :=
  let padded := rmdPad msg
  reg5Bytes (rmdBlocks padded.length rmdInit padded)

/-- `hash160(data)` from `register-token.js` (SHA-256 then RIPEMD-160). -/
def hash160 (msg : List Nat) : List Nat := ripemd160 (sha256 msg)

/-! ## secp256k1

Modelled from the spec: the scripts consume the `@noble/secp256k1` library as
a black box exposing point decoding, point addition, scalar multiplication by
the generator and compressed encoding over the secp256k1 curve
(`y ^ 2 = x ^ 3 + 7` over the prime field below).  The model follows the
spec's collaborator contract: decoding fails on an encoding that is not a
valid point of the curve, the scalar multiplier requires `1 ≤ k < n`, and the
compressed encoding rejects the point at infinity. -/

/-- The secp256k1 field prime. -/
def secpP : Nat :=
  0xFFFFFFFFFFFFFFFFFFFFFFFFFFFFFFFFFFFFFFFFFFFFFFFFFFFFFFFEFFFFFC2F

/-- The secp256k1 group order. -/
def secpN : Nat :=
  0xFFFFFFFFFFFFFFFFFFFFFFFFFFFFFFFEBAAEDCE6AF48A03BBFD25E8CD0364141

def secpGx : Nat :=
  0x79BE667EF9DCBBAC55A06295CE870B07029BFCDB2DCE28D959F2815B16F81798

def secpGy : Nat :=
  0x483ADA7726A3C4655DA4FBFC0E1108A8FD17B448A68554199C47D08FFB10D4B8

/-- Fuel-driven square-and-multiply modular exponentiation. -/
def powModAux : Nat → Nat → Nat → Nat → Nat
  | 0, _, _, _ => 1
  | fuel + 1, b, e, m =>
    if e = 0 then 1
    else
      let r := powModAux fuel (b * b % m) (e / 2) m
      if e % 2 = 1 then r * b % m else r

def powMod (b e m : Nat) : Nat := powModAux 300 (b % m) e m

/-- Modular inverse in the secp256k1 field, by Fermat's little theorem. -/
def modInvP (x : Nat) : Nat := powMod x (secpP - 2) secpP

/-- A candidate square root in the secp256k1 field (`p ≡ 3 mod 4`). -/
def sqrtP (x : Nat) : Nat := powMod x ((secpP + 1) / 4) secpP

/-- An affine secp256k1 point or the point at infinity. -/
inductive ECPoint where
  | inf
  | aff (x y : Nat)
deriving DecidableEq

/-- The generator point. -/
def ecG : ECPoint := .aff secpGx secpGy

/-- The secp256k1 group law on affine coordinates (coordinates assumed
reduced modulo the prime). -/
def ecAdd : ECPoint → ECPoint → ECPoint
  | .inf, q => q
  | p, .inf => p
  | .aff x1 y1, .aff x2 y2 =>
    if x1 = x2 then
      if (y1 + y2) % secpP = 0 then .inf
      else
        let lam := 3 * x1 * x1 % secpP * modInvP (2 * y1 % secpP) % secpP
        let x3 := (lam * lam + 2 * (secpP - x1)) % secpP
        let y3 := (lam * ((x1 + secpP - x3) % secpP) % secpP + secpP - y1) % secpP
        .aff x3 y3
    else
      let lam := (y2 + secpP - y1) % secpP * modInvP ((x2 + secpP - x1) % secpP) % secpP
      let x3 := (lam * lam + 2 * secpP - x1 - x2) % secpP
      let y3 := (lam * ((x1 + secpP - x3) % secpP) % secpP + secpP - y1) % secpP
      .aff x3 y3

/-- A point in Jacobian coordinates (`x = X / Z ^ 2`, `y = Y / Z ^ 3`,
infinity at `Z = 0`), used internally for scalar multiplication so that only
one field inversion is needed per multiplication. -/
structure JacPoint where
  x : Nat
  y : Nat
  z : Nat

/-- Jacobian point doubling on the `a = 0` curve. -/
def jacDouble (p : JacPoint) : JacPoint :=
  let pr := secpP
  let a := p.x * p.x % pr
  let b := p.y * p.y % pr
  let c := b * b % pr
  let d := 2 * ((p.x + b) * (p.x + b) % pr + 2 * pr - a - c) % pr
  let e := 3 * a % pr
  let f := e * e % pr
  let x3 := (f + 2 * pr - 2 * d % pr) % pr
  let y3 := (e * ((d + pr - x3) % pr) % pr + pr - 8 * c % pr) % pr
  let z3 := 2 * p.y % pr * p.z % pr
  ⟨x3, y3, z3⟩

/-- Jacobian point addition (general case, falling back to doubling or
infinity when the operands coincide or are opposite). -/
def jacAdd (p q : JacPoint) : JacPoint :=
  if p.z % secpP = 0 then q
  else if q.z % secpP = 0 then p
  else
    let pr := secpP
    let z1z1 := p.z * p.z % pr
    let z2z2 := q.z * q.z % pr
    let u1 := p.x * z2z2 % pr
    let u2 := q.x * z1z1 % pr
    let s1 := p.y * q.z % pr * z2z2 % pr
    let s2 := q.y * p.z % pr * z1z1 % pr
    let h := (u2 + pr - u1) % pr
    let r := (s2 + pr - s1) % pr
    if h = 0 then
      if r = 0 then jacDouble p else ⟨1, 1, 0⟩
    else
      let hh := h * h % pr
      let hhh := h * hh % pr
      let v := u1 * hh % pr
      let x3 := (r * r % pr + 2 * pr - hhh - 2 * v % pr) % pr
      let y3 := (r * ((v + pr - x3) % pr) % pr + pr - s1 * hhh % pr) % pr
      let z3 := p.z * q.z % pr * h % pr
      ⟨x3, y3, z3⟩

/-- Fuel-driven double-and-add scalar multiplication in Jacobian
coordinates. -/
def jacMulAux : Nat → JacPoint → Nat → JacPoint → JacPoint
  | 0, _, _, acc => acc
  | fuel + 1, base, k, acc =>
    if k = 0 then acc
    else
      jacMulAux fuel (jacDouble base) (k / 2)
        (if k % 2 = 1 then jacAdd acc base else acc)

def toJacPoint : ECPoint → JacPoint
  | .inf => ⟨1, 1, 0⟩
  | .aff x y => ⟨x, y, 1⟩

def fromJacPoint (p : JacPoint) : ECPoint :=
  if p.z % secpP = 0 then .inf
  else
    let zi := modInvP (p.z % secpP)
    let zi2 := zi * zi % secpP
    .aff (p.x * zi2 % secpP) (p.y * zi2 % secpP * zi % secpP)

/-- Scalar multiplication on the curve. -/
def ecMul (p : ECPoint) (k : Nat) : ECPoint :=
  fromJacPoint (jacMulAux 300 (toJacPoint p) k ⟨1, 1, 0⟩)

/-- `ProjectivePoint.fromHex` on a 33-byte compressed encoding: fails unless
the bytes denote a point on the curve. -/
def decodePoint (bs : List Nat) : Except String ECPoint :=
  if bs.length ≠ 33 then .error "invalid point encoding length"
  else
    match bs with
    | [] => .error "invalid point encoding length"
    | head :: tail =>
      if head ≠ 2 && head ≠ 3 then .error "invalid point encoding head"
      else
        let x := beBytesToNat tail
        if x = 0 || secpP ≤ x then .error "point coordinate not a field element"
        else
          let rhs := (x * x % secpP * x + 7) % secpP
          let y0 := sqrtP rhs
          if y0 * y0 % secpP ≠ rhs then .error "point is not on the curve"
          else
            let y := if y0 % 2 = head % 2 then y0 else secpP - y0
            .ok (.aff x y)

/-- `toRawBytes(true)`: the 33-byte compressed encoding; fails on the point
at infinity. -/
def compressPoint : ECPoint → Except String (List Nat)
  | .inf => .error "point at infinity"
  | .aff x y => .ok ((if y % 2 = 0 then 2 else 3) :: natToBeBytes 32 x)

/-! ## JSON values and `JSON.stringify`

JavaScript objects preserve insertion order of their string keys; the model
keeps object fields as an ordered list. -/

mutual

inductive Json where
  | null
  | bool (b : Bool)
  | num (n : Int)
  | str (s : String)
  | arr (xs : JsonList)
  | obj (fs : JsonFields)
deriving DecidableEq

inductive JsonList where
  | nil
  | cons (hd : Json) (tl : JsonList)
deriving DecidableEq

inductive JsonFields where
  | nil
  | cons (key : String) (val : Json) (tl : JsonFields)
deriving DecidableEq

end

/-- JSON string escaping as performed by `JSON.stringify`. -/
def jsonEscChar (c : Char) : List Char :=
  if c = '"' then ['\\', '"']
  else if c = '\\' then ['\\', '\\']
  else if c.toNat = 8 then ['\\', 'b']
  else if c.toNat = 9 then ['\\', 't']
  else if c.toNat = 10 then ['\\', 'n']
  else if c.toNat = 12 then ['\\', 'f']
  else if c.toNat = 13 then ['\\', 'r']
  else if c.toNat < 32 then
    ['\\', 'u', '0', '0', hexDigitChar (c.toNat / 16), hexDigitChar (c.toNat % 16)]
  else [c]

def jsonQuote (s : String) : String :=
  "\"" ++ String.mk (s.data.flatMap jsonEscChar) ++ "\""

mutual

/-- `JSON.stringify(value)` (no replacer, no indent): compact serialization
in insertion order of the object keys. -/
def serJson : Json → String
  | .null => "null"
  | .bool true => "true"
  | .bool false => "false"
  | .num n => toString n
  | .str s => jsonQuote s
  | .arr xs => "[" ++ serList xs ++ "]"
  | .obj fs => "\x7b" ++ serFields fs ++ "\x7d"

def serList : JsonList → String
  | .nil => ""
  | .cons x .nil => serJson x
  | .cons x tl => serJson x ++ "," ++ serList tl

def serFields : JsonFields → String
  | .nil => ""
  | .cons k v .nil => jsonQuote k ++ ":" ++ serJson v
  | .cons k v tl => jsonQuote k ++ ":" ++ serJson v ++ "," ++ serFields tl

end

/-- Property lookup on JSON object fields (first binding wins, keys are
unique in all inputs considered). -/
def getField : JsonFields → String → Option Json
  | .nil, _ => none
  | .cons k v tl, key => if k = key then some v else getField tl key

/-- `metadata[field]`: property access; `undefined` on non-objects. -/
def jsonGet : Json → String → Option Json
  | .obj fs, key => getField fs key
  | _, _ => none

/-- JavaScript truthiness of a JSON value. -/
def jsTruthyJson : Json → Bool
  | .null => false
  | .bool b => b
  | .num n => n ≠ 0
  | .str s => s ≠ ""
  | .arr _ => true
  | .obj _ => true

/-- Truthiness of a possibly-absent property. -/
def jsTruthyOpt (o : Option Json) : Bool := (o.map jsTruthyJson).getD false

def jsonListLength : JsonList → Nat
  | .nil => 0
  | .cons _ tl => jsonListLength tl + 1

/-- `value.length` in UTF-16 code units for strings, element count for
arrays, `undefined` otherwise. -/
def jsLength : Json → Option Nat
  | .str s => some (s.data.foldl (fun acc c => acc + if c.toNat < 0x10000 then 1 else 2) 0)
  | .arr xs => some (jsonListLength xs)
  | _ => none

/-- `Array.isArray`. -/
def jsIsArray : Json → Bool
  | .arr _ => true
  | _ => false

/-! ## `register-token.js`: P2C key and Color-ID derivation -/

/-- `computeP2CPubkey(paymentBase, commitment)`: the compressed encoding of
`P + SHA256(P ‖ c) * G`, where the payment base is given as hex. -/
def computeP2CPubkey (paymentBase : String) (commitment : List Nat) :
    Except String (List Nat) :=
  let paymentBaseBytes := hexDecode paymentBase
  let tweak := sha256 (paymentBaseBytes ++ commitment)
  match decodePoint paymentBaseBytes with
  | .error e => .error e
  | .ok paymentBasePoint =>
    let k := beBytesToNat tweak
    if k = 0 || secpN ≤ k then .error "scalar invalid"
    else
      let tweakPoint := ecMul ecG k
      compressPoint (ecAdd paymentBasePoint tweakPoint)

/-- `deriveColorId(p2cPubkey, tokenType)`: double SHA-256 of the P2PKH script
over the hash160 of the tweaked key, hex-encoded after the type tag. -/
def deriveColorId (p2cPubkey : List Nat) (tokenType : String) : String :=
  let pubkeyHash := hash160 p2cPubkey
  let script := [0x76, 0xa9, 0x14] ++ pubkeyHash ++ [0x88, 0xac]
  let scriptHash := doubleSha256 script
  tokenType ++ hexEncBytes scriptHash

/-- The record returned by `verifyColorId`. -/
structure VerificationResult where
  matched : Bool
  derived : String
  expected : String
  metadataHash : String
  p2cPubkey : String
deriving DecidableEq

/-- `verifyColorId(metadata, paymentBase, expectedColorId)`: recompute the
Color ID from the metadata (serialized with plain `JSON.stringify`) and the
payment base, and compare with the claimed id case-insensitively. -/
def verifyColorId (metadata : Json) (paymentBase : String)
    (expectedColorId : String) : Except String VerificationResult :=
  let tokenType := jsToLower (strTakeChars 2 expectedColorId)
  let metadataJson := serJson metadata
  let metadataHash := sha256 (utf8Bytes metadataJson)
  match computeP2CPubkey paymentBase metadataHash with
  | .error e => .error e
  | .ok p2cPubkey =>
    let derivedColorId := deriveColorId p2cPubkey tokenType
    .ok ⟨jsToLower derivedColorId == jsToLower expectedColorId, derivedColorId,
      jsToLower expectedColorId, hexEncBytes metadataHash, hexEncBytes p2cPubkey⟩

/-! ## Spec-side definitions (written from the design document's wording) -/

/-- Spec wording (§4.4): interpret a 32-byte digest as a big-endian 256-bit
scalar. -/
def specBeScalar (bs : List Nat) : Nat := beBytesToNat bs

/-- Spec wording (§4.4): `tweak = SHA256(paymentBaseBytes ‖ commitment)`,
`tweakedPoint = decode(paymentBase) + tweak · G`, output the compressed
encoding of `tweakedPoint`; fails on an invalid base point, an out-of-range
scalar, or a point at infinity. -/
def specP2CDerive (paymentBase : String) (commitment : List Nat) :
    Except String (List Nat) :=
  let baseBytes := hexDecode paymentBase
  let tweak := specBeScalar (sha256 (baseBytes ++ commitment))
  match decodePoint baseBytes with
  | .error e => .error e
  | .ok basePoint =>
    if tweak = 0 || secpN ≤ tweak then .error "scalar invalid"
    else compressPoint (ecAdd basePoint (ecMul ecG tweak))

/-- Spec wording (§4.5): the 25-byte P2PKH script template
`OP_DUP OP_HASH160 <20-byte hash> OP_EQUALVERIFY OP_CHECKSIG`. -/
def p2pkhScriptOfHash (pubkeyHash : List Nat) : List Nat :=
  [0x76, 0xa9, 0x14] ++ pubkeyHash ++ [0x88, 0xac]

/-- Spec wording (§4.5): the 64-hex-character suffix of a Color ID derived
from a tweaked public key. -/
def colorSuffix (p2cPubkey : List Nat) : String :=
  hexEncBytes (doubleSha256 (p2pkhScriptOfHash (hash160 p2cPubkey)))

/-! ## `register-token.js`: input validation -/

def isDigitChar (c : Char) : Bool := 48 ≤ c.toNat && c.toNat ≤ 57

def isHexChar (c : Char) : Bool :=
  isDigitChar c || (97 ≤ c.toNat && c.toNat ≤ 102) || (65 ≤ c.toNat && c.toNat ≤ 70)

/-- `COLOR_ID_PATTERN`: `^c[123][0-9a-f]{64}$` with the `i` flag. -/
def colorIdPatternTest (s : String) : Bool :=
  match s.data with
  | c0 :: c1 :: rest =>
    (c0 = 'c' || c0 = 'C') && (c1 = '1' || c1 = '2' || c1 = '3') &&
    rest.length = 64 && rest.all isHexChar
  | _ => false

/-- `PAYMENT_BASE_PATTERN`: `^(02|03)[0-9a-f]{64}$` with the `i` flag. -/
def paymentBasePatternTest (s : String) : Bool :=
  match s.data with
  | c0 :: c1 :: rest =>
    c0 = '0' && (c1 = '2' || c1 = '3') && rest.length = 64 && rest.all isHexChar
  | _ => false

/-- A `NETWORKS` table entry. -/
structure NetworkInfo where
  id : String
  name : String
  label : String
deriving DecidableEq

/-- The `NETWORKS` table of the first `register-token.js` revision. -/
def networksTable : List (String × NetworkInfo) :=
  [("Tapyrus API - Network ID: 15215628", ⟨"15215628", "Tapyrus API", "api"⟩),
   ("Tapyrus Testnet - Network ID: 1939510133", ⟨"1939510133", "Tapyrus Testnet", "testnet"⟩)]

/-- Match a literal at the head of a character list, returning the rest. -/
def matchLiteral : List Char → List Char → Option (List Char)
  | [], l => some l
  | _, [] => none
  | p :: ps, c :: cs => if p = c then matchLiteral ps cs else none

/-- The regular expression `/Network ID:\s*(\d+)/` applied at one position. -/
def networkIdAt (l : List Char) : Option String :=
  match matchLiteral "Network ID:".data l with
  | none => none
  | some rest =>
    let digits := (rest.dropWhile jsIsWs).takeWhile isDigitChar
    if digits.isEmpty then none else some (String.mk digits)

/-- Leftmost match of `/Network ID:\s*(\d+)/`. -/
def scanNetworkId : List Char → Option String
  | [] => none
  | c :: rest =>
    match networkIdAt (c :: rest) with
    | some digits => some digits
    | none => scanNetworkId rest

def lookupAssoc {α : Type} : List (String × α) → String → Option α
  | [], _ => none
  | (k, v) :: tl, key => if k = key then some v else lookupAssoc tl key

/-- `parseNetwork(networkLabel)`: direct key match, then extraction of the
network id from the label. -/
def parseNetwork (networkLabel : String) : Option NetworkInfo :=
  match lookupAssoc networksTable networkLabel with
  | some info => some info
  | none =>
    match scanNetworkId networkLabel.data with
    | none => none
    | some nid => (networksTable.find? (fun e => e.2.id = nid)).map (·.2)

/-- `isValidHttpsUrl(url)`.  Modelled from the spec: the script delegates to
the platform WHATWG `URL` parser (not part of this repository) and accepts
exactly the absolute URLs whose scheme is `https`. -/
def isValidHttpsUrl (url : String) : Bool :=
  jsToLower (strTakeChars 8 url) = "https://" && url.data.length > 8

/-- Split a character list at each `'@'`. -/
def splitAtSignAux : List Char → List Char → List (List Char)
  | [], acc => [acc.reverse]
  | c :: rest, acc =>
    if c = '@' then acc.reverse :: splitAtSignAux rest []
    else splitAtSignAux rest (c :: acc)

/-- `isValidEmail(email)`: the regular expression
`^[^\s@]+@[^\s@]+\.[^\s@]+$` (exactly one `@`, a non-empty whitespace-free
local part, and a domain part with an inner dot). -/
def isValidEmail (email : String) : Bool :=
  match splitAtSignAux email.data [] with
  | [lp, dp] =>
    !lp.isEmpty && lp.all (fun c => !jsIsWs c) &&
    !dp.isEmpty && dp.all (fun c => !jsIsWs c) &&
    ((dp.drop 1).dropLast.contains '.')
  | _ => false

/-- URL shape of a JSON value (URL fields are strings in every input the
scripts accept; other values never form a valid `https` URL). -/
def jsonHttpsOk : Json → Bool
  | .str s => isValidHttpsUrl s
  | _ => false

def jsonEmailOk : Json → Bool
  | .str s => isValidEmail s
  | _ => false

/-- The parsed issue fields: a JavaScript object of string values, in
insertion order. -/
def dataGet : List (String × String) → String → Option String
  | [], _ => none
  | (k, v) :: tl, key => if k = key then some v else dataGet tl key

/-- Truthiness of a string field (`undefined` and `''` are falsy). -/
def strFieldTruthy (o : Option String) : Bool :=
  match o with
  | none => false
  | some s => s ≠ ""

def networkErrs (data : List (String × String)) : List String :=
  match dataGet data "network" with
  | none => ["Network is required"]
  | some v =>
    if v = "" then ["Network is required"]
    else
      match parseNetwork v with
      | none => ["Invalid network selected. Please select Tapyrus API or Tapyrus Testnet"]
      | some _ => []

def colorIdErrs (data : List (String × String)) : List String :=
  match dataGet data "color_id" with
  | none => ["Color ID is required"]
  | some v =>
    if v = "" then ["Color ID is required"]
    else if !colorIdPatternTest v then
      ["Invalid Color ID format. Must be c1/c2/c3 prefix + 64 hex characters"]
    else []

def paymentBaseErrs (data : List (String × String)) : List String :=
  match dataGet data "payment_base" with
  | none => ["Payment Base is required"]
  | some v =>
    if v = "" then ["Payment Base is required"]
    else if !paymentBasePatternTest v then
      ["Invalid Payment Base format. Must be 33 bytes compressed public key (66 hex characters starting with 02 or 03)"]
    else []

def metadataReqErrs (data : List (String × String)) : List String :=
  if strFieldTruthy (dataGet data "metadata") then [] else ["Token metadata is required"]

/-- The required-and-length-bounded check shared by `name` and `symbol`. -/
def requiredLenErrs (m : Json) (field : String) (limit : Nat)
    (reqMsg lenMsg : String) : List String :=
  match jsonGet m field with
  | none => [reqMsg]
  | some v =>
    if !jsTruthyJson v then [reqMsg]
    else
      match jsLength v with
      | some l => if l > limit then [lenMsg] else []
      | none => []

def decimalsErrs (m : Json) : List String :=
  match jsonGet m "decimals" with
  | none => []
  | some v =>
    match v with
    | .num n =>
      if n < 0 || n > 18 then ["Metadata: \"decimals\" must be an integer between 0 and 18"]
      else []
    | _ => ["Metadata: \"decimals\" must be an integer between 0 and 18"]

def descriptionErrs (m : Json) : List String :=
  match jsonGet m "description" with
  | none => []
  | some v =>
    if !jsTruthyJson v then []
    else
      match jsLength v with
      | some l => if l > 256 then ["Metadata: \"description\" must be 256 characters or less"] else []
      | none => []

def urlFieldErrs (m : Json) (field : String) : List String :=
  match jsonGet m field with
  | none => []
  | some v =>
    if jsTruthyJson v && !jsonHttpsOk v then
      ["Metadata: \"" ++ field ++ "\" must be a valid HTTPS URL"]
    else []

def issuerUrlErrs (m : Json) : List String :=
  match jsonGet m "issuer" with
  | none => []
  | some iss =>
    if !jsTruthyJson iss then []
    else
      match jsonGet iss "url" with
      | none => []
      | some u =>
        if jsTruthyJson u && !jsonHttpsOk u then
          ["Metadata: \"issuer.url\" must be a valid HTTPS URL"]
        else []

def issuerEmailErrs (m : Json) : List String :=
  match jsonGet m "issuer" with
  | none => []
  | some iss =>
    if !jsTruthyJson iss then []
    else
      match jsonGet iss "email" with
      | none => []
      | some e =>
        if jsTruthyJson e && !jsonEmailOk e then
          ["Metadata: \"issuer.email\" must be a valid email address"]
        else []

def attributesErrs (m : Json) : List String :=
  match jsonGet m "attributes" with
  | none => []
  | some v => if !jsIsArray v then ["Metadata: \"attributes\" must be an array"] else []

/-- The metadata-structure checks of `validateMetadata`, run only when the
parsed metadata value is truthy. -/
def metadataStructErrs (metadata : Option Json) : List String :=
  match metadata with
  | none => []
  | some m =>
    if !jsTruthyJson m then []
    else
      requiredLenErrs m "name" 64 "Metadata: \"name\" field is required"
        "Metadata: \"name\" must be 64 characters or less" ++
      requiredLenErrs m "symbol" 12 "Metadata: \"symbol\" field is required"
        "Metadata: \"symbol\" must be 12 characters or less" ++
      decimalsErrs m ++ descriptionErrs m ++
      urlFieldErrs m "icon" ++ urlFieldErrs m "website" ++ urlFieldErrs m "terms" ++
      urlFieldErrs m "image" ++ urlFieldErrs m "animation_url" ++
      urlFieldErrs m "external_url" ++
      issuerUrlErrs m ++ issuerEmailErrs m ++ attributesErrs m

/-- `validateMetadata(data, metadata)`: every check appends its violations to
the error list; nothing returns early. -/
def validateMetadata (data : List (String × String)) (metadata : Option Json) :
    List String :=
  networkErrs data ++ colorIdErrs data ++ paymentBaseErrs data ++
  metadataReqErrs data ++ metadataStructErrs metadata

/-! ## `register-token.js`: issue body parsing -/

/-- `body.split('\n')` (keeps empty pieces). -/
def splitLinesAux : List Char → List Char → List String
  | [], acc => [String.mk acc.reverse]
  | c :: rest, acc =>
    if c = '\n' then String.mk acc.reverse :: splitLinesAux rest []
    else splitLinesAux rest (c :: acc)

def splitLines (s : String) : List String := splitLinesAux s.data []

def strStartsWith (pre s : String) : Bool := (matchLiteral pre.data s.data).isSome

/-- The capture of `/^###\s+(.+)$/` on one line, `none` when the line does
not match.  `.` does not match a line terminator, so a line whose text after
the whitespace run contains a carriage return never matches; when nothing
follows the whitespace run the greedy `\s+` backs off one character. -/
def headerCapture (line : String) : Option String :=
  match matchLiteral "###".data line.data with
  | none => none
  | some t =>
    let w := t.takeWhile jsIsWs
    let rest := t.dropWhile jsIsWs
    if w.isEmpty then none
    else if rest.isEmpty then
      match w.getLast? with
      | some lastWs =>
        if w.length ≥ 2 && !jsIsLineTerm lastWs then some (String.mk [lastWs]) else none
      | none => none
    else if rest.any jsIsLineTerm then none
    else some (String.mk rest)

/-- `name.replace(/\s+/g, '_')`: each maximal whitespace run becomes one
underscore. -/
def wsRunsAux : Bool → List Char → List Char
  | _, [] => []
  | prevWs, c :: rest =>
    if jsIsWs c then
      if prevWs then wsRunsAux true rest else '_' :: wsRunsAux true rest
    else c :: wsRunsAux false rest

def replaceWsRuns (s : String) : String := String.mk (wsRunsAux false s.data)

/-- `mapFieldName(name)` of the first `register-token.js` revision. -/
def mapFieldName (name : String) : String :=
  if name = "Network" then "network"
  else if name = "Color ID" then "color_id"
  else if name = "Payment Base" then "payment_base"
  else if name = "Token Metadata (JSON)" then "metadata"
  else if name = "Confirmation" then "confirmation"
  else replaceWsRuns (jsToLower name)

/-- `data[key] = value` on a JavaScript object: overwrite in place or append. -/
def objSet : List (String × String) → String → String → List (String × String)
  | [], key, val => [(key, val)]
  | (k, v) :: tl, key, val =>
    if k = key then (k, val) :: tl else (k, v) :: objSet tl key val

def joinNl : List String → String
  | [] => ""
  | [x] => x
  | x :: xs => x ++ "\n" ++ joinNl xs

/-- The loop state of `parseIssueBody`: the object built so far, the current
field key (`""` plays the role of the falsy initial `null`), and the value
lines collected so far in reverse order. -/
structure PibState where
  data : List (String × String)
  currentField : String
  currentValue : List String

/-- Store the current field (`data[currentField] = currentValue.join('\n').trim()`). -/
def pibSave (st : PibState) : List (String × String) :=
  if st.currentField = "" then st.data
  else objSet st.data st.currentField (jsTrim (joinNl st.currentValue.reverse))

/-- One iteration of the `parseIssueBody` line loop. -/
def pibStep (st : PibState) (line : String) : PibState :=
  match headerCapture line with
  | some captured =>
    ⟨pibSave st, mapFieldName (jsTrim captured), []⟩
  | none =>
    if strStartsWith "- [" line then st
    else if st.currentField = "" then st
    else ⟨st.data, st.currentField, line :: st.currentValue⟩

/-- `parseIssueBody` on an already-split line list. -/
def parseIssueLines (lines : List String) : List (String × String) :=
  (pibSave (lines.foldl pibStep ⟨[], "", []⟩)).filter
    fun kv => !(kv.2 = "" || kv.2 = "_No response_")

/-- `parseIssueBody(body)`: header-driven accumulation of field values,
skipping checkbox lines, then removal of empty and `_No response_` values. -/
def parseIssueBody (body : String) : List (String × String) :=
  parseIssueLines (splitLines body)

/-! ## `src/unnamed/part_001`: `buildMetadata` -/

/-- The `TOKEN_TYPES` table of `part_001`. -/
def tokenTypesGet (pfx : String) : Option String :=
  if pfx = "c1" then some "reissuable"
  else if pfx = "c2" then some "non-reissuable"
  else if pfx = "c3" then some "nft"
  else none

/-- `parseInt(s, 10)`: leading whitespace, an optional sign, then leading
decimal digits; `none` models `NaN`. -/
def jsParseInt (s : String) : Option Int :=
  let l := trimLeftChars s.data
  let digitsVal : List Char → Option Nat := fun cs =>
    let ds := cs.takeWhile isDigitChar
    if ds.isEmpty then none
    else some (ds.foldl (fun acc c => acc * 10 + (c.toNat - '0'.toNat)) 0)
  match l with
  | '-' :: rest => (digitsVal rest).map (fun n => -(n : Int))
  | '+' :: rest => (digitsVal rest).map (fun n => (n : Int))
  | rest => (digitsVal rest).map (fun n => (n : Int))

def jsonFieldsAppend : JsonFields → JsonFields → JsonFields
  | .nil, gs => gs
  | .cons k v tl, gs => .cons k v (jsonFieldsAppend tl gs)

/-- The optional `issuer` sub-object of `buildMetadata`. -/
def buildIssuer (data : List (String × String)) : JsonFields :=
  if strFieldTruthy (dataGet data "issuer_name") ||
     strFieldTruthy (dataGet data "issuer_url") ||
     strFieldTruthy (dataGet data "issuer_email") then
    let f1 : JsonFields :=
      match dataGet data "issuer_name" with
      | some v => if v ≠ "" then .cons "name" (.str v) .nil else .nil
      | none => .nil
    let f2 : JsonFields :=
      match dataGet data "issuer_url" with
      | some v => if v ≠ "" then .cons "url" (.str v) .nil else .nil
      | none => .nil
    let f3 : JsonFields :=
      match dataGet data "issuer_email" with
      | some v => if v ≠ "" then .cons "email" (.str v) .nil else .nil
      | none => .nil
    .cons "issuer" (.obj (jsonFieldsAppend f1 (jsonFieldsAppend f2 f3))) .nil
  else .nil

/-- One optional string-valued field of `buildMetadata` (added only when the
issue field is truthy). -/
def optStrField (data : List (String × String)) (dataKey outKey : String) : JsonFields :=
  match dataGet data dataKey with
  | some v => if v ≠ "" then .cons outKey (.str v) .nil else .nil
  | none => .nil

/-- `buildMetadata(data)` from `part_001`.  `jsonParse` stands for the
platform `JSON.parse` used for the `attributes` field (external primitive,
reached only for `c3` color ids).  The `token_type` key is added with the
`TOKEN_TYPES` value of the color-id prefix; an unknown prefix would store
`undefined` in JavaScript, which the model omits. -/
def buildMetadata (jsonParse : String → Json) (data : List (String × String)) :
    JsonFields :=
  let colorIdPfx := jsToLower (strTakeChars 2 ((dataGet data "color_id").getD ""))
  let base : JsonFields :=
    .cons "version" (.str "1.0")
      (.cons "name" (.str ((dataGet data "name").getD ""))
        (.cons "symbol" (.str ((dataGet data "symbol").getD "")) .nil))
  let decimalsF : JsonFields :=
    match dataGet data "decimals" with
    | some v => .cons "decimals" (.num ((jsParseInt v).getD 0)) .nil
    | none => .cons "decimals" (.num 0) .nil
  let optional1 :=
    jsonFieldsAppend (optStrField data "description" "description")
      (jsonFieldsAppend (optStrField data "icon" "icon")
        (jsonFieldsAppend (optStrField data "website" "website")
          (optStrField data "terms" "terms")))
  let issuerF := buildIssuer data
  let typeF : JsonFields :=
    match tokenTypesGet colorIdPfx with
    | some tt => .cons "token_type" (.str tt) .nil
    | none => .nil
  let nftF : JsonFields :=
    if colorIdPfx = "c3" then
      jsonFieldsAppend (optStrField data "image" "image")
        (jsonFieldsAppend (optStrField data "animation_url" "animation_url")
          (jsonFieldsAppend (optStrField data "external_url" "external_url")
            (match dataGet data "attributes" with
             | some v => if v ≠ "" then .cons "attributes" (jsonParse v) .nil else .nil
             | none => .nil)))
    else .nil
  jsonFieldsAppend base
    (jsonFieldsAppend decimalsF
      (jsonFieldsAppend optional1
        (jsonFieldsAppend issuerF (jsonFieldsAppend typeF nftF))))

/-! ## OutPoint chain cross-check (second `register-token.js` revision)

The tweaked public key is produced by the `tapyrusjs-lib` `Metadata` class,
which is not part of the repository; the cross-check logic takes the key as
an argument.  The explorer response is modelled as the outcome of the
`fetchJson` collaborator. -/

/-- One entry of the explorer transaction `vout` array. -/
structure TxOut where
  scriptpubkey : Option String
deriving DecidableEq

/-- The explorer transaction object (`vout` may be absent). -/
structure TxData where
  vout : Option (List TxOut)
deriving DecidableEq

/-- `fetchOutPointScriptPubkey(explorerApi, txid, index)` given the
`fetchJson` outcome: missing `vout`, a missing output index, or a missing
`scriptpubkey` raise; otherwise the script bytes are returned. -/
def fetchOutPointScriptPubkey (fetched : Except String TxData) (txid : String)
    (index : Nat) : Except String (List Nat) :=
  match fetched with
  | .error e => .error e
  | .ok txData =>
    match txData.vout with
    | none => .error ("Output index " ++ toString index ++ " not found in transaction " ++ txid)
    | some vout =>
      match vout[index]? with
      | none => .error ("Output index " ++ toString index ++ " not found in transaction " ++ txid)
      | some out =>
        match out.scriptpubkey with
        | none => .error ("scriptpubkey not found for output " ++ toString index ++ " in transaction " ++ txid)
        | some spHex =>
          if spHex = "" then
            .error ("scriptpubkey not found for output " ++ toString index ++ " in transaction " ++ txid)
          else .ok (hexDecode spHex)

/-- `deriveP2PKHScriptPubkey(p2cPubkey)`.  Modelled from the spec: the
`payments.p2pkh` collaborator produces the canonical P2PKH script over the
hash160 of the key. -/
def deriveP2PKHScriptPubkey (p2cPubkey : List Nat) : List Nat :=
  p2pkhScriptOfHash (hash160 p2cPubkey)

/-- The record returned by `verifyOutPointScriptPubkey`. -/
structure ScriptVerification where
  matched : Bool
  expected : String
  actual : String
  p2cPubkey : String
deriving DecidableEq

/-- `verifyOutPointScriptPubkey` given the library-derived tweaked key and
the `fetchJson` outcome: byte-for-byte comparison of the fetched script with
the derived script, both reported in hex. -/
def verifyOutPointScriptPubkey (p2cPubkey : List Nat)
    (fetched : Except String TxData) (txid : String) (index : Nat) :
    Except String ScriptVerification :=
  let expectedScriptPubkey := deriveP2PKHScriptPubkey p2cPubkey
  match fetchOutPointScriptPubkey fetched txid index with
  | .error e => .error e
  | .ok actualScriptPubkey =>
    .ok ⟨expectedScriptPubkey == actualScriptPubkey, hexEncBytes expectedScriptPubkey,
      hexEncBytes actualScriptPubkey, hexEncBytes p2cPubkey⟩

/-- The outcome of the chain cross-check step of `main`: pass, mismatch
(registration aborted with both scripts reported), or an exception caught
and reported (registration aborted). -/
inductive ChainCheckOutcome where
  | passed (sv : ScriptVerification)
  | failedMismatch (sv : ScriptVerification)
  | failedError (msg : String)
deriving DecidableEq

/-- The `c2`/`c3` chain cross-check block of `main`: any exception from the
fetch is caught and aborts, a script mismatch aborts with both scripts in
the message, and only a byte-equal script passes. -/
def chainCheck (p2cPubkey : List Nat) (fetched : Except String TxData)
    (txid : String) (index : Nat) : ChainCheckOutcome :=
  match verifyOutPointScriptPubkey p2cPubkey fetched txid index with
  | .error e => .failedError ("Failed to verify OutPoint scriptPubkey: " ++ e)
  | .ok sv => if sv.matched then .passed sv else .failedMismatch sv

/-! ## Shared concrete inputs -/

/-- The metadata `{name: "Test", symbol: "TST"}` of the test scripts, in
`name`-first insertion order. -/
def tmNS : Json := .obj (.cons "name" (.str "Test") (.cons "symbol" (.str "TST") .nil))

/-- The same two fields inserted in `symbol`-first order. -/
def tmSN : Json := .obj (.cons "symbol" (.str "TST") (.cons "name" (.str "Test") .nil))

/-- The compressed generator point, the payment base of the test scripts. -/
def genPB : String := "0279be667ef9dcbbac55a06295ce870b07029bfcdb2dce28d959f2815b16f81798"

def c1AllA : String := "c1aaaaaaaaaaaaaaaaaaaaaaaaaaaaaaaaaaaaaaaaaaaaaaaaaaaaaaaaaaaaaaaa"

def c2AllA : String := "c2aaaaaaaaaaaaaaaaaaaaaaaaaaaaaaaaaaaaaaaaaaaaaaaaaaaaaaaaaaaaaaaa"

/-- A 33-byte encoding with prefix `02` whose `x`-coordinate (`5`) is not on
the curve (`5 ^ 3 + 7 = 132` is not a square modulo the field prime). -/
def badPB : String := "020000000000000000000000000000000000000000000000000000000000000005"

/-! ## Supporting lemmas -/

def isLowerHexChar (c : Char) : Bool := isDigitChar c || (97 ≤ c.toNat && c.toNat ≤ 102)

def allLowerHex (s : String) : Bool := s.data.all isLowerHexChar

theorem isLowerHexChar_hexDigitChar (n : Nat) :
    isLowerHexChar (hexDigitChar n) = true := by
  unfold hexDigitChar
  split <;> decide

theorem hexPairs_length (bs : List Nat) : (hexPairs bs).length = 2 * bs.length := by
  induction bs with
  | nil => rfl
  | cons b tl ih => simp [hexPairs, ih]; omega

theorem hexPairs_all_hex (bs : List Nat) :
    (hexPairs bs).all isLowerHexChar = true := by
  induction bs with
  | nil => rfl
  | cons b tl ih => simp [hexPairs, List.all_cons, ih, isLowerHexChar_hexDigitChar]

theorem hexEncBytes_length (bs : List Nat) : (hexEncBytes bs).length = 2 * bs.length :=
  hexPairs_length bs

theorem doubleSha256_length (msg : List Nat) : (doubleSha256 msg).length = 32 :=
  sha256_length _

/-- `Except` outcome test used by the error-condition claims. -/
def exceptErrored {α : Type} : Except String α → Bool
  | .error _ => true
  | .ok _ => false

/-! ## Claim theorems -/

/-- Claim C5: for every tweaked public key and class tag, `deriveColorId`
returns the tag followed by the 64 lower-case hex characters of the double
SHA-256 of the P2PKH script built over `RIPEMD160(SHA256(pubkey))`; the
output is a function of exactly the key bytes and the tag. -/
theorem c5_color_id_shape (pk : List Nat) (t : String) :
    deriveColorId pk t = t ++ colorSuffix pk ∧
    (colorSuffix pk).length = 64 ∧ allLowerHex (colorSuffix pk) = true := by
  refine ⟨rfl, ?_, ?_⟩
  · show (hexEncBytes (doubleSha256 (p2pkhScriptOfHash (hash160 pk)))).length = 64
    rw [hexEncBytes_length, doubleSha256_length]
  · exact hexPairs_all_hex _

/-- Claim C6 (part): when the `name` property of a truthy metadata value is
falsy, `validateMetadata` reports the missing-name violation. -/
theorem requiredLenErrs_of_falsy (m : Json) (field : String) (limit : Nat)
    (reqMsg lenMsg : String) (h : jsTruthyOpt (jsonGet m field) = false) :
    requiredLenErrs m field limit reqMsg lenMsg = [reqMsg] := by
  unfold requiredLenErrs
  cases hj : jsonGet m field with
  | none => rfl
  | some v =>
    rw [jsTruthyOpt, hj] at h
    simp at h
    simp [h]

/-- Claim C6: metadata validation collects every violated rule; in
particular a truthy metadata value whose `name` and `symbol` are both
missing (or falsy) yields an error list containing both the missing-name and
the missing-symbol violations. -/
theorem c6_missing_name_symbol_reported (data : List (String × String)) (m : Json)
    (hm : jsTruthyJson m = true)
    (hname : jsTruthyOpt (jsonGet m "name") = false)
    (hsym : jsTruthyOpt (jsonGet m "symbol") = false) :
    "Metadata: \"name\" field is required" ∈ validateMetadata data (some m) ∧
    "Metadata: \"symbol\" field is required" ∈ validateMetadata data (some m) := by
  have h1 := requiredLenErrs_of_falsy m "name" 64
    "Metadata: \"name\" field is required" "Metadata: \"name\" must be 64 characters or less" hname
  have h2 := requiredLenErrs_of_falsy m "symbol" 12
    "Metadata: \"symbol\" field is required" "Metadata: \"symbol\" must be 12 characters or less" hsym
  constructor
  · simp [validateMetadata, metadataStructErrs, hm, h1]
  · simp [validateMetadata, metadataStructErrs, hm, h2]

theorem c6_missing_name_symbol_reported_witness :
    "Metadata: \"name\" field is required" ∈ validateMetadata [] (some (.obj .nil)) ∧
    "Metadata: \"symbol\" field is required" ∈ validateMetadata [] (some (.obj .nil)) :=
  c6_missing_name_symbol_reported [] (.obj .nil) rfl rfl rfl

/-- Claim C3: `computeP2CPubkey` computes exactly the spec's P2C derivation
(`tweak = SHA256(P ‖ c)` as a big-endian scalar, `decode(P) + tweak·G`,
compressed output), and every successful result is a 33-byte compressed
encoding starting with `02` or `03`. -/
theorem c3_p2c_matches_spec (pb : String) (c : List Nat) :
    computeP2CPubkey pb c = specP2CDerive pb c ∧
    (∀ r, computeP2CPubkey pb c = .ok r →
      r.length = 33 ∧ (r.head? = some 2 ∨ r.head? = some 3)) := by
  constructor
  · rfl
  · intro r h
    unfold computeP2CPubkey at h
    cases hd : decodePoint (hexDecode pb) with
    | error e => simp [hd] at h
    | ok pt =>
      simp only [hd] at h
      split at h
      · cases h
      · cases hs : ecAdd pt (ecMul ecG (beBytesToNat (sha256 (hexDecode pb ++ c)))) with
        | inf => rw [hs] at h; cases h
        | aff x y =>
          rw [hs] at h
          unfold compressPoint at h
          injection h with h
          subst h
          refine ⟨by simp [natToBeBytes_length], ?_⟩
          split
          · exact Or.inl rfl
          · exact Or.inr rfl

/-- The spec's failure conditions for the P2C derivation: base point not on
the curve, tweak scalar zero or at least the curve order, or resulting point
at infinity. -/
def p2cFailCond (paymentBase : String) (commitment : List Nat) : Bool :=
  let bs := hexDecode paymentBase
  let k := beBytesToNat (sha256 (bs ++ commitment))
  match decodePoint bs with
  | .error _ => true
  | .ok basePt => (k = 0 || secpN ≤ k) || ecAdd basePt (ecMul ecG k) = ECPoint.inf

/-- Claim C4: `computeP2CPubkey` returns an error exactly when the base
point fails to decode as a curve point, the tweak scalar is zero or at least
the curve order, or the tweaked point is the point at infinity; in all other
cases a key is returned. -/
theorem c4_p2c_error_conditions (pb : String) (c : List Nat) :
    exceptErrored (computeP2CPubkey pb c) = p2cFailCond pb c := by
  unfold computeP2CPubkey p2cFailCond
  cases hd : decodePoint (hexDecode pb) with
  | error e => simp [hd, exceptErrored]
  | ok pt =>
    simp only [hd]
    split
    · rename_i hguard
      simp [exceptErrored, hguard]
    · rename_i hguard
      simp only [Bool.not_eq_true] at hguard
      cases he : ecAdd pt (ecMul ecG (beBytesToNat (sha256 (hexDecode pb ++ c)))) with
      | inf => simp [exceptErrored, compressPoint, he, hguard]
      | aff x y => simp [exceptErrored, compressPoint, he, hguard]

set_option maxRecDepth 1000000 in
set_option maxHeartbeats 4000000 in
theorem c4_p2c_error_conditions_witness :
    exceptErrored (computeP2CPubkey badPB []) = true :=
  (c4_p2c_error_conditions badPB []).trans (by decide)

/-! ## Claim C7: NFT-only fields under non-NFT classes -/

/-- Remove every binding of a key from object fields. -/
def removeFieldF : JsonFields → String → JsonFields
  | .nil, _ => .nil
  | .cons k v tl, key =>
    if k = key then removeFieldF tl key else .cons k v (removeFieldF tl key)

/-- Remove a key from a JSON object (identity on other values). -/
def removeField : Json → String → Json
  | .obj fs, key => .obj (removeFieldF fs key)
  | .null, _ => .null
  | .bool b, _ => .bool b
  | .num n, _ => .num n
  | .str s, _ => .str s
  | .arr xs, _ => .arr xs

theorem getField_removeFieldF_ne : ∀ (fs : JsonFields) (key f : String), f ≠ key →
    getField (removeFieldF fs key) f = getField fs f
  | .nil, _, _, _ => rfl
  | .cons k v tl, key, f, h => by
    have ih := getField_removeFieldF_ne tl key f h
    unfold removeFieldF
    by_cases hk : k = key
    · subst hk
      rw [if_pos rfl, ih, getField, if_neg (fun hkf => h hkf.symm)]
    · rw [if_neg hk]
      rw [getField, getField]
      by_cases hf : k = f
      · rw [if_pos hf, if_pos hf]
      · rw [if_neg hf, if_neg hf, ih]

theorem getField_removeFieldF_self : ∀ (fs : JsonFields) (key : String),
    getField (removeFieldF fs key) key = none
  | .nil, _ => rfl
  | .cons k v tl, key => by
    have ih := getField_removeFieldF_self tl key
    unfold removeFieldF
    by_cases hk : k = key
    · rw [if_pos hk]; exact ih
    · rw [if_neg hk, getField, if_neg hk]; exact ih

theorem jsonGet_removeField_ne (m : Json) (key f : String) (h : f ≠ key) :
    jsonGet (removeField m key) f = jsonGet m f := by
  cases m <;> simp [removeField, jsonGet]
  exact getField_removeFieldF_ne _ key f h

theorem jsonGet_removeField_self (m : Json) (key : String) :
    jsonGet (removeField m key) key = none := by
  cases m <;> simp [removeField, jsonGet]
  exact getField_removeFieldF_self _ key

theorem jsTruthyJson_removeField (m : Json) (key : String) :
    jsTruthyJson (removeField m key) = jsTruthyJson m := by
  cases m <;> rfl

theorem requiredLenErrs_removeField (m : Json) (key field : String) (h : field ≠ key)
    (limit : Nat) (r l : String) :
    requiredLenErrs (removeField m key) field limit r l = requiredLenErrs m field limit r l := by
  unfold requiredLenErrs
  rw [jsonGet_removeField_ne m key field h]

theorem decimalsErrs_removeField (m : Json) (key : String) (h : ("decimals" : String) ≠ key) :
    decimalsErrs (removeField m key) = decimalsErrs m := by
  unfold decimalsErrs
  rw [jsonGet_removeField_ne m key _ h]

theorem descriptionErrs_removeField (m : Json) (key : String)
    (h : ("description" : String) ≠ key) :
    descriptionErrs (removeField m key) = descriptionErrs m := by
  unfold descriptionErrs
  rw [jsonGet_removeField_ne m key _ h]

theorem urlFieldErrs_removeField (m : Json) (key field : String) (h : field ≠ key) :
    urlFieldErrs (removeField m key) field = urlFieldErrs m field := by
  unfold urlFieldErrs
  rw [jsonGet_removeField_ne m key _ h]

theorem issuerUrlErrs_removeField (m : Json) (key : String) (h : ("issuer" : String) ≠ key) :
    issuerUrlErrs (removeField m key) = issuerUrlErrs m := by
  unfold issuerUrlErrs
  rw [jsonGet_removeField_ne m key _ h]

theorem issuerEmailErrs_removeField (m : Json) (key : String) (h : ("issuer" : String) ≠ key) :
    issuerEmailErrs (removeField m key) = issuerEmailErrs m := by
  unfold issuerEmailErrs
  rw [jsonGet_removeField_ne m key _ h]

theorem attributesErrs_removeField (m : Json) (key : String)
    (h : ("attributes" : String) ≠ key) :
    attributesErrs (removeField m key) = attributesErrs m := by
  unfold attributesErrs
  rw [jsonGet_removeField_ne m key _ h]

/-- A string accepted by the `https`-URL check is non-empty. -/
theorem isValidHttpsUrl_ne_empty (u : String) (h : isValidHttpsUrl u = true) : u ≠ "" := by
  intro he
  subst he
  simp [isValidHttpsUrl, jsToLower, strTakeChars] at h

theorem urlFieldErrs_image_of_valid (m : Json) (u : String)
    (himg : jsonGet m "image" = some (.str u)) (hurl : isValidHttpsUrl u = true) :
    urlFieldErrs m "image" = [] := by
  unfold urlFieldErrs
  rw [himg]
  simp [jsonHttpsOk, hurl]

theorem urlFieldErrs_image_removed (m : Json) :
    urlFieldErrs (removeField m "image") "image" = [] := by
  unfold urlFieldErrs
  rw [jsonGet_removeField_self]

theorem metadataStructErrs_remove_image (m : Json) (u : String)
    (himg : jsonGet m "image" = some (.str u)) (hurl : isValidHttpsUrl u = true) :
    metadataStructErrs (some (removeField m "image")) = metadataStructErrs (some m) := by
  show (if !jsTruthyJson (removeField m "image") then [] else _) =
    (if !jsTruthyJson m then [] else _)
  rw [jsTruthyJson_removeField]
  cases htr : jsTruthyJson m
  · simp
  · simp only [Bool.not_true, Bool.false_eq_true, if_false]
    rw [requiredLenErrs_removeField m "image" "name" (by decide),
      requiredLenErrs_removeField m "image" "symbol" (by decide),
      decimalsErrs_removeField m "image" (by decide),
      descriptionErrs_removeField m "image" (by decide),
      urlFieldErrs_removeField m "image" "icon" (by decide),
      urlFieldErrs_removeField m "image" "website" (by decide),
      urlFieldErrs_removeField m "image" "terms" (by decide),
      urlFieldErrs_removeField m "image" "animation_url" (by decide),
      urlFieldErrs_removeField m "image" "external_url" (by decide),
      issuerUrlErrs_removeField m "image" (by decide),
      issuerEmailErrs_removeField m "image" (by decide),
      attributesErrs_removeField m "image" (by decide),
      urlFieldErrs_image_removed m, urlFieldErrs_image_of_valid m u himg hurl]

/-- Key membership in object fields. -/
def hasKeyF : JsonFields → String → Bool
  | .nil, _ => false
  | .cons k _ tl, key => k = key || hasKeyF tl key

theorem hasKeyF_append : ∀ (a b : JsonFields) (key : String),
    hasKeyF (jsonFieldsAppend a b) key = (hasKeyF a key || hasKeyF b key)
  | .nil, b, key => by simp [jsonFieldsAppend, hasKeyF]
  | .cons k v tl, b, key => by
    simp [jsonFieldsAppend, hasKeyF, hasKeyF_append tl b key, Bool.or_assoc]

theorem hasKeyF_optStrField (data : List (String × String)) (dk ok key : String)
    (h : ok ≠ key) : hasKeyF (optStrField data dk ok) key = false := by
  unfold optStrField
  cases dataGet data dk with
  | none => rfl
  | some v =>
    by_cases hv : v ≠ ""
    · simp [hv, hasKeyF, h]
    · simp [hv, hasKeyF]

theorem hasKeyF_buildIssuer (data : List (String × String)) (key : String)
    (h : ("issuer" : String) ≠ key) : hasKeyF (buildIssuer data) key = false := by
  unfold buildIssuer
  split
  · simp [hasKeyF, h]
  · rfl

/-- The four NFT-only keys are absent from `buildMetadata` output when the
color-id prefix is not `c3`. -/
theorem buildMetadata_no_nft_keys (jsonParse : String → Json)
    (data : List (String × String)) (key : String)
    (hpfx : jsToLower (strTakeChars 2 ((dataGet data "color_id").getD "")) ≠ "c3")
    (hk : key = "image" ∨ key = "animation_url" ∨ key = "external_url" ∨ key = "attributes") :
    hasKeyF (buildMetadata jsonParse data) key = false := by
  have hver : ("version" : String) ≠ key := by rcases hk with h | h | h | h <;> subst h <;> decide
  have hname : ("name" : String) ≠ key := by rcases hk with h | h | h | h <;> subst h <;> decide
  have hsym : ("symbol" : String) ≠ key := by rcases hk with h | h | h | h <;> subst h <;> decide
  have hdec : ("decimals" : String) ≠ key := by rcases hk with h | h | h | h <;> subst h <;> decide
  have hdesc : ("description" : String) ≠ key := by
    rcases hk with h | h | h | h <;> subst h <;> decide
  have hicon : ("icon" : String) ≠ key := by rcases hk with h | h | h | h <;> subst h <;> decide
  have hweb : ("website" : String) ≠ key := by rcases hk with h | h | h | h <;> subst h <;> decide
  have hterms : ("terms" : String) ≠ key := by rcases hk with h | h | h | h <;> subst h <;> decide
  have hiss : ("issuer" : String) ≠ key := by rcases hk with h | h | h | h <;> subst h <;> decide
  have htt : ("token_type" : String) ≠ key := by
    rcases hk with h | h | h | h <;> subst h <;> decide
  unfold buildMetadata
  simp only [hasKeyF_append]
  rw [if_neg hpfx]
  have hbase : hasKeyF (JsonFields.cons "version" (.str "1.0")
      (.cons "name" (.str ((dataGet data "name").getD ""))
        (.cons "symbol" (.str ((dataGet data "symbol").getD "")) .nil))) key = false := by
    simp [hasKeyF, hver, hname, hsym]
  have hdecs : ∀ j : Json, hasKeyF (JsonFields.cons "decimals" j .nil) key = false := by
    intro j; simp [hasKeyF, hdec]
  have htyp : hasKeyF (match tokenTypesGet (jsToLower (strTakeChars 2
      ((dataGet data "color_id").getD ""))) with
      | some tt => JsonFields.cons "token_type" (.str tt) .nil
      | none => JsonFields.nil) key = false := by
    cases tokenTypesGet (jsToLower (strTakeChars 2 ((dataGet data "color_id").getD ""))) with
    | none => rfl
    | some tt => simp [hasKeyF, htt]
  rw [hbase]
  cases hdg : dataGet data "decimals" <;>
    simp [hdecs, htyp, hasKeyF,
      hasKeyF_optStrField data "description" "description" key hdesc,
      hasKeyF_optStrField data "icon" "icon" key hicon,
      hasKeyF_optStrField data "website" "website" key hweb,
      hasKeyF_optStrField data "terms" "terms" key hterms,
      hasKeyF_buildIssuer data key hiss, hdec]

/-- Claim C7 (amended): for a token whose color-id prefix is not `c3`, the
NFT-only fields are not rejected: a metadata record carrying a valid-HTTPS
`image` validates exactly as the same record without `image` (the field is
silently accepted), and `buildMetadata` silently omits all four NFT-only
keys from the stored metadata. -/
theorem c7_nft_fields_ignored (data data2 : List (String × String)) (m : Json)
    (u : String) (jsonParse : String → Json)
    (himg : jsonGet m "image" = some (.str u)) (hurl : isValidHttpsUrl u = true)
    (hpfx : jsToLower (strTakeChars 2 ((dataGet data2 "color_id").getD "")) ≠ "c3") :
    validateMetadata data (some m) = validateMetadata data (some (removeField m "image")) ∧
    (hasKeyF (buildMetadata jsonParse data2) "image" = false ∧
     hasKeyF (buildMetadata jsonParse data2) "animation_url" = false ∧
     hasKeyF (buildMetadata jsonParse data2) "external_url" = false ∧
     hasKeyF (buildMetadata jsonParse data2) "attributes" = false) := by
  constructor
  · unfold validateMetadata
    rw [metadataStructErrs_remove_image m u himg hurl]
  · exact ⟨buildMetadata_no_nft_keys jsonParse data2 _ hpfx (Or.inl rfl),
      buildMetadata_no_nft_keys jsonParse data2 _ hpfx (Or.inr (Or.inl rfl)),
      buildMetadata_no_nft_keys jsonParse data2 _ hpfx (Or.inr (Or.inr (Or.inl rfl))),
      buildMetadata_no_nft_keys jsonParse data2 _ hpfx (Or.inr (Or.inr (Or.inr rfl)))⟩

/-- The metadata record of the C7 counterexample: a `reissuable`-class
record carrying the NFT-only `image` field. -/
def c7meta : Json :=
  .obj (.cons "name" (.str "Test")
    (.cons "symbol" (.str "TST")
      (.cons "image" (.str "https://example.com/nft.png") .nil)))

/-- The issue fields of the C7 counterexample: class prefix `c1`. -/
def c7data : List (String × String) :=
  [("network", "Tapyrus API - Network ID: 15215628"),
   ("color_id", c1AllA), ("payment_base", genPB), ("metadata", "x")]

/-- A second issue-field record (class prefix `c2`) for the `buildMetadata`
half of claim C7. -/
def c7data2 : List (String × String) :=
  [("color_id", c2AllA), ("name", "Test"), ("symbol", "TST"),
   ("image", "https://example.com/nft.png")]

/-- Claim C7 (counterexample): a `c1`-class (reissuable) submission whose
metadata carries the NFT-only `image` field passes `validateMetadata` with
an empty error list — it is not rejected. -/
theorem c7_nft_fields_not_rejected_counterexample :
    jsTruthyOpt (jsonGet c7meta "image") = true ∧
    strTakeChars 2 c1AllA = "c1" ∧
    validateMetadata c7data (some c7meta) = [] :=
  ⟨rfl, rfl, by decide⟩

theorem c7_nft_fields_ignored_witness :
    validateMetadata c7data (some c7meta) =
      validateMetadata c7data (some (removeField c7meta "image")) ∧
    (hasKeyF (buildMetadata (fun _ => Json.null) c7data2) "image" = false ∧
     hasKeyF (buildMetadata (fun _ => Json.null) c7data2) "animation_url" = false ∧
     hasKeyF (buildMetadata (fun _ => Json.null) c7data2) "external_url" = false ∧
     hasKeyF (buildMetadata (fun _ => Json.null) c7data2) "attributes" = false) :=
  c7_nft_fields_ignored c7data c7data2 c7meta "https://example.com/nft.png"
    (fun _ => Json.null) rfl (by decide) (by decide)

/-! ## Claim C10: `parseIssueBody` invariants -/

theorem head_dropWhile_false (p : Char → Bool) :
    ∀ (l : List Char) (c : Char), (l.dropWhile p).head? = some c → p c = false := by
  intro l
  induction l with
  | nil => intro c h; cases h
  | cons a tl ih =>
    intro c h
    cases hp : p a with
    | true =>
      rw [List.dropWhile_cons, if_pos hp] at h
      exact ih c h
    | false =>
      rw [List.dropWhile_cons, if_neg (by simp [hp])] at h
      cases h
      exact hp

theorem dropWhile_of_head_false (p : Char → Bool) (l : List Char)
    (h : ∀ c, l.head? = some c → p c = false) : l.dropWhile p = l := by
  cases l with
  | nil => rfl
  | cons a tl =>
    rw [List.dropWhile_cons, if_neg (by simp [h a rfl])]

theorem dropWhile_idem (p : Char → Bool) (l : List Char) :
    (l.dropWhile p).dropWhile p = l.dropWhile p :=
  dropWhile_of_head_false p _ (head_dropWhile_false p l)

theorem trimLeftChars_idem (l : List Char) :
    trimLeftChars (trimLeftChars l) = trimLeftChars l :=
  dropWhile_idem jsIsWs l

theorem trimRightChars_idem (l : List Char) :
    trimRightChars (trimRightChars l) = trimRightChars l := by
  unfold trimRightChars
  rw [List.reverse_reverse, dropWhile_idem]

/-- `trimRightChars` only removes a suffix. -/
theorem trimRightChars_append (l : List Char) :
    ∃ s, l = trimRightChars l ++ s := by
  refine ⟨(l.reverse.takeWhile jsIsWs).reverse, ?_⟩
  unfold trimRightChars
  conv_lhs => rw [← l.reverse_reverse, ← @List.takeWhile_append_dropWhile _ jsIsWs l.reverse]
  rw [List.reverse_append]

theorem trimLeft_trimRight (l : List Char) (hl : trimLeftChars l = l) :
    trimLeftChars (trimRightChars l) = trimRightChars l := by
  apply dropWhile_of_head_false
  intro c hc
  obtain ⟨s, hs⟩ := trimRightChars_append l
  cases htr : trimRightChars l with
  | nil => rw [htr] at hc; cases hc
  | cons a t =>
    rw [htr] at hc
    have hac : a = c := Option.some.inj hc
    have hhead : l.head? = some c := by
      rw [hs, htr, ← hac]; rfl
    have hdw : (l.dropWhile jsIsWs).head? = some c := by
      rw [trimLeftChars] at hl
      rw [hl]
      exact hhead
    exact head_dropWhile_false jsIsWs l c hdw

theorem jsTrim_idem (s : String) : jsTrim (jsTrim s) = jsTrim s := by
  unfold jsTrim
  show String.mk (trimRightChars (trimLeftChars (trimRightChars (trimLeftChars s.data)))) = _
  rw [trimLeft_trimRight _ (trimLeftChars_idem s.data), trimRightChars_idem]

/-- Every binding of `objSet l k v` is a binding of `l` or carries `v`. -/
theorem mem_objSet : ∀ (l : List (String × String)) (k v : String) (kv : String × String),
    kv ∈ objSet l k v → kv ∈ l ∨ kv.2 = v
  | [], k, v, kv => by
    intro h
    simp [objSet] at h
    simp [h]
  | (k0, v0) :: tl, k, v, kv => by
    intro h
    unfold objSet at h
    by_cases hk : k0 = k
    · rw [if_pos hk] at h
      rcases List.mem_cons.mp h with h | h
      · exact Or.inr (by simp [h])
      · exact Or.inl (List.mem_cons_of_mem _ h)
    · rw [if_neg hk] at h
      rcases List.mem_cons.mp h with h | h
      · exact Or.inl (by simp [h])
      · rcases mem_objSet tl k v kv h with h | h
        · exact Or.inl (List.mem_cons_of_mem _ h)
        · exact Or.inr h

/-- All values of an issue-field object are fixed points of `jsTrim`. -/
def valuesTrimmed (l : List (String × String)) : Prop :=
  ∀ kv ∈ l, jsTrim kv.2 = kv.2

theorem valuesTrimmed_objSet (l : List (String × String)) (k v : String)
    (hl : valuesTrimmed l) (hv : jsTrim v = v) : valuesTrimmed (objSet l k v) := by
  intro kv hkv
  rcases mem_objSet l k v kv hkv with h | h
  · exact hl kv h
  · rw [h]; exact hv

theorem valuesTrimmed_pibSave (st : PibState) (h : valuesTrimmed st.data) :
    valuesTrimmed (pibSave st) := by
  unfold pibSave
  split
  · exact h
  · exact valuesTrimmed_objSet _ _ _ h (jsTrim_idem _)

theorem valuesTrimmed_pibStep (st : PibState) (line : String)
    (h : valuesTrimmed st.data) : valuesTrimmed (pibStep st line).data := by
  unfold pibStep
  split
  · exact valuesTrimmed_pibSave st h
  · split
    · exact h
    · split
      · exact h
      · exact h

theorem valuesTrimmed_foldl (lines : List String) :
    ∀ st : PibState, valuesTrimmed st.data →
      valuesTrimmed (lines.foldl pibStep st).data := by
  induction lines with
  | nil => intro st h; exact h
  | cons line tl ih =>
    intro st h
    exact ih _ (valuesTrimmed_pibStep st line h)

/-- A checkbox line (`- [` at the start) never matches the header pattern. -/
theorem checkbox_no_header (line : String) (h : strStartsWith "- [" line = true) :
    headerCapture line = none := by
  unfold strStartsWith at h
  unfold headerCapture
  cases hl : line.data with
  | nil =>
    rw [hl] at h
    exact absurd h (by decide)
  | cons c rest =>
    rw [hl] at h
    rw [show ("- [" : String).data = ['-', ' ', '['] from rfl] at h
    have hc : ('-' : Char) = c := by
      by_contra hne
      simp only [matchLiteral] at h
      rw [if_neg hne] at h
      exact absurd h (by decide)
    subst hc
    simp [matchLiteral, show ("###" : String).data = ['#', '#', '#'] from rfl]

/-- Checkbox lines leave the parser state unchanged. -/
theorem pibStep_checkbox (st : PibState) (line : String)
    (h : strStartsWith "- [" line = true) : pibStep st line = st := by
  unfold pibStep
  rw [checkbox_no_header line h, h]
  rfl

theorem foldl_skip_filter {α β : Type} (f : β → α → β) (p : α → Bool)
    (hf : ∀ st a, p a = false → f st a = st) :
    ∀ (l : List α) (init : β), l.foldl f init = (l.filter p).foldl f init := by
  intro l
  induction l with
  | nil => intro init; rfl
  | cons a tl ih =>
    intro init
    cases hp : p a with
    | true => rw [List.foldl_cons, List.filter_cons_of_pos hp, List.foldl_cons, ih]
    | false => rw [List.foldl_cons, hf init a hp, List.filter_cons_of_neg (by simp [hp]), ih]

/-- Claim C10: every binding produced by `parseIssueBody` has a value that is
neither empty nor the literal `_No response_` and is a fixed point of the
JavaScript trim; and checkbox lines (starting `- [`) never contribute —
parsing the body equals parsing the body with all checkbox lines removed. -/
theorem c10_parse_issue_body_invariants (body : String) :
    (∀ kv ∈ parseIssueBody body,
      kv.2 ≠ "" ∧ kv.2 ≠ "_No response_" ∧ jsTrim kv.2 = kv.2) ∧
    parseIssueBody body =
      parseIssueLines ((splitLines body).filter (fun l => !strStartsWith "- [" l)) := by
  constructor
  · intro kv hkv
    unfold parseIssueBody parseIssueLines at hkv
    have hmem := List.mem_filter.mp hkv
    have htrim : jsTrim kv.2 = kv.2 := by
      have hvt : valuesTrimmed (pibSave ((splitLines body).foldl pibStep ⟨[], "", []⟩)) :=
        valuesTrimmed_pibSave _ (valuesTrimmed_foldl _ _ (by intro kv h; cases h))
      exact hvt kv hmem.1
    have hcond := hmem.2
    simp only [Bool.not_eq_true', Bool.or_eq_false_iff, decide_eq_false_iff_not] at hcond
    exact ⟨hcond.1, hcond.2, htrim⟩
  · unfold parseIssueBody parseIssueLines
    rw [foldl_skip_filter pibStep (fun l => !strStartsWith "- [" l)
      (by
        intro st a ha
        apply pibStep_checkbox
        cases hb : strStartsWith "- [" a with
        | true => rfl
        | false => simp [hb] at ha)]

/-- A concrete issue body for the C10 witness: one field, one checkbox
line, a value surrounded by blank lines. -/
def c10body : String :=
  "### Color ID\n\n  c1abc  \n\n- [x] I am the issuer\n"

theorem c10_parse_issue_body_invariants_witness :
    ("color_id", "c1abc").2 ≠ "" ∧ ("color_id", "c1abc").2 ≠ "_No response_" ∧
    jsTrim ("color_id", "c1abc").2 = ("color_id", "c1abc").2 :=
  (c10_parse_issue_body_invariants c10body).1 ("color_id", "c1abc") (by decide)

/-! ## Claim C9: OutPoint script cross-check -/

/-- Claim C9: for OutPoint-bound verifications, the chain cross-check passes
exactly when the fetched script is byte-for-byte the P2PKH script derived
from the P2C key; a differing script aborts with both scripts reported in
hex; any fetch error (including a missing output or missing `scriptpubkey`)
aborts with the caught message; none of these outcomes is a success. -/
theorem c9_chain_check_spec (p2c : List Nat) (fetched : Except String TxData)
    (txid : String) (idx : Nat) :
    (∀ sv, chainCheck p2c fetched txid idx = .passed sv →
      fetchOutPointScriptPubkey fetched txid idx = .ok (deriveP2PKHScriptPubkey p2c)) ∧
    (∀ sv actual, fetchOutPointScriptPubkey fetched txid idx = .ok actual →
      chainCheck p2c fetched txid idx = .failedMismatch sv →
      actual ≠ deriveP2PKHScriptPubkey p2c ∧
      sv.expected = hexEncBytes (deriveP2PKHScriptPubkey p2c) ∧
      sv.actual = hexEncBytes actual) ∧
    (∀ e, fetchOutPointScriptPubkey fetched txid idx = .error e →
      chainCheck p2c fetched txid idx =
        .failedError ("Failed to verify OutPoint scriptPubkey: " ++ e)) ∧
    (∀ txd vout, fetched = .ok txd → txd.vout = some vout → vout.length ≤ idx →
      ∃ e, fetchOutPointScriptPubkey fetched txid idx = .error e) := by
  refine ⟨?_, ?_, ?_, ?_⟩
  · intro sv h
    unfold chainCheck verifyOutPointScriptPubkey at h
    cases hf : fetchOutPointScriptPubkey fetched txid idx with
    | error e => rw [hf] at h; cases h
    | ok actual =>
      rw [hf] at h
      simp only [] at h
      split at h
      · rename_i hm
        congr 1
        have hb : (deriveP2PKHScriptPubkey p2c == actual) = true := hm
        exact (eq_of_beq hb).symm
      · cases h
  · intro sv actual hf h
    unfold chainCheck verifyOutPointScriptPubkey at h
    rw [hf] at h
    simp only [] at h
    split at h
    · cases h
    · rename_i hm
      cases h
      have hne : ¬ deriveP2PKHScriptPubkey p2c = actual := by
        intro he
        exact hm (by rw [he]; simp)
      exact ⟨fun he => hne he.symm, rfl, rfl⟩
  · intro e he
    unfold chainCheck verifyOutPointScriptPubkey
    rw [he]
  · intro txd vout hft hv hle
    unfold fetchOutPointScriptPubkey
    simp only [hft, hv, List.getElem?_eq_none hle]
    exact ⟨_, rfl⟩

theorem c9_chain_check_spec_witness :
    chainCheck [2, 3] (Except.error "connect ECONNREFUSED") "txid0" 0 =
      .failedError "Failed to verify OutPoint scriptPubkey: connect ECONNREFUSED" :=
  (c9_chain_check_spec [2, 3] (Except.error "connect ECONNREFUSED") "txid0" 0).2.2.1
    "connect ECONNREFUSED" rfl

/-! ## Claim C3 witness -/

/-- The compressed P2C key for the generator payment base and the empty
commitment, computed once and reused by the C3 witness. -/
def c3resultBytes : List Nat :=
  [2, 40, 53, 119, 150, 109, 21, 172, 47, 249, 11, 225, 207, 10, 51, 100, 254, 18,
   40, 222, 84, 215, 221, 46, 52, 150, 164, 87, 197, 169, 249, 195, 175]

set_option maxRecDepth 1000000 in
set_option maxHeartbeats 12000000 in
theorem c3_p2c_matches_spec_witness :
    computeP2CPubkey genPB [] = specP2CDerive genPB [] ∧
    (c3resultBytes.length = 33 ∧
      (c3resultBytes.head? = some 2 ∨ c3resultBytes.head? = some 3)) :=
  ⟨(c3_p2c_matches_spec genPB []).1,
   (c3_p2c_matches_spec genPB []).2 c3resultBytes (by rfl)⟩

/-! ## Claim C1: key-order dependence of the derivation -/

def jsonFieldsList : JsonFields → List (String × Json)
  | .nil => []
  | .cons k v tl => (k, v) :: jsonFieldsList tl

def metaFieldsOf : Json → JsonFields
  | .obj fs => fs
  | _ => .nil

set_option maxRecDepth 1000000 in
set_option maxHeartbeats 40000000 in
/-- Claim C1 (counterexample): two metadata mappings with the same keys and
values in opposite insertion order, the object of `name` and `symbol`
against the object of `symbol` and `name`, derive different ColorIds through
`verifyColorId`, because `JSON.stringify` preserves insertion order and no
key sorting is performed before digesting. -/
theorem c1_key_order_counterexample :
    jsonFieldsList (metaFieldsOf tmSN) = (jsonFieldsList (metaFieldsOf tmNS)).reverse ∧
    (verifyColorId tmNS genPB c1AllA).map (fun r => r.derived) =
      Except.ok "c16beb2f7976e55566ce2add7d6c76e07232e967d16c3e23d73d3ef8a7ba97edca" ∧
    (verifyColorId tmSN genPB c1AllA).map (fun r => r.derived) =
      Except.ok "c1abb87d532b71221167f3e0ed69d12c67ade3609a48e97b4734073ae8a5a04eff" ∧
    ("c16beb2f7976e55566ce2add7d6c76e07232e967d16c3e23d73d3ef8a7ba97edca" : String) ≠
      "c1abb87d532b71221167f3e0ed69d12c67ade3609a48e97b4734073ae8a5a04eff" :=
  ⟨rfl, by rfl, by rfl, by decide⟩

/-- Claim C1 (amended): the derivation is deterministic and depends on the
metadata only through its `JSON.stringify` serialization — equal serialized
bytes give equal verification results — but it is not independent of the key
insertion order, which the serialization preserves. -/
theorem c1_serialization_congruence (m1 m2 : Json) (pb e : String)
    (h : serJson m1 = serJson m2) : verifyColorId m1 pb e = verifyColorId m2 pb e := by
  unfold verifyColorId
  rw [h]

/-- `tmNS` with its field list built by concatenation: a syntactically
different term with the same serialization. -/
def tmNSbuilt : Json :=
  .obj (jsonFieldsAppend (.cons "name" (.str "Test") .nil)
    (.cons "symbol" (.str "TST") .nil))

theorem c1_serialization_congruence_witness :
    verifyColorId tmNS genPB c1AllA = verifyColorId tmNSbuilt genPB c1AllA :=
  c1_serialization_congruence tmNS tmNSbuilt genPB c1AllA rfl

/-! ## Claim C2: the commitment used for `c2`/`c3` claimed ids -/

set_option maxRecDepth 1000000 in
set_option maxHeartbeats 40000000 in
/-- Claim C2: in `verifyColorId` the commitment tweaked into the payment key
is the metadata digest for every class: a `c2`-prefixed claimed id is
verified against a ColorId whose 64-hex suffix coincides with the
`c1`-derivation from the same metadata, and the digest used is
`SHA256(JSON.stringify(metadata))`; no OutPoint serialization is hashed. -/
theorem c2_commitment_is_metadata_digest :
    (verifyColorId tmNS genPB c2AllA).map (fun r => strDropChars 2 r.derived) =
      (verifyColorId tmNS genPB c1AllA).map (fun r => strDropChars 2 r.derived) ∧
    (verifyColorId tmNS genPB c2AllA).map (fun r => r.metadataHash) =
      Except.ok (hexEncBytes (sha256 (utf8Bytes (serJson tmNS)))) ∧
    (verifyColorId tmNS genPB c2AllA).map (fun r => r.derived) =
      Except.ok "c26beb2f7976e55566ce2add7d6c76e07232e967d16c3e23d73d3ef8a7ba97edca" :=
  ⟨by rfl, by rfl, by rfl⟩

/-! ## Claim C8: the verification result record -/

/-- The tweaked key bytes used by `verifyColorId` for a given metadata and
payment base (empty on a derivation error, in which case `verifyColorId`
itself raises instead of returning a record). -/
def p2cBytesOf (m : Json) (pb : String) : List Nat :=
  match computeP2CPubkey pb (sha256 (utf8Bytes (serJson m))) with
  | .ok bs => bs
  | .error _ => []

/-- Claim C8: whenever `verifyColorId` returns a record, `matched` is true
exactly when the ColorId derived from the `(metadata, paymentBase)` pair
equals the claimed id up to letter case, and the record always carries the
claimed id (lower-cased), the derived id, the metadata digest and the
tweaked public key. -/
theorem c8_verification_result_spec (m : Json) (pb e : String)
    (r : VerificationResult) (h : verifyColorId m pb e = .ok r) :
    (r.matched = true ↔ jsToLower r.derived = jsToLower e) ∧
    r.expected = jsToLower e ∧
    r.metadataHash = hexEncBytes (sha256 (utf8Bytes (serJson m))) ∧
    r.derived = deriveColorId (p2cBytesOf m pb) (jsToLower (strTakeChars 2 e)) ∧
    r.p2cPubkey = hexEncBytes (p2cBytesOf m pb) := by
  unfold verifyColorId at h
  cases hc : computeP2CPubkey pb (sha256 (utf8Bytes (serJson m))) with
  | error e2 =>
    simp only [hc] at h
    exact Except.noConfusion h
  | ok p2c =>
    simp only [hc] at h
    cases h
    unfold p2cBytesOf
    rw [hc]
    exact ⟨beq_iff_eq, rfl, rfl, rfl, rfl⟩

/-- The record returned for the sample inputs, computed once. -/
def r8sample : VerificationResult :=
  ⟨false, "c16beb2f7976e55566ce2add7d6c76e07232e967d16c3e23d73d3ef8a7ba97edca",
   c1AllA, "2cf92e4b8d602fbe5ecc799b3c9c3ed24a40536ef08966f8c327af8d9528ad0e",
   "032f88c6b5a663ce06a67ed18593a5e1b1881016876458d61c0713c1a7fa29747b"⟩

set_option maxRecDepth 1000000 in
set_option maxHeartbeats 40000000 in
theorem c8_verification_result_spec_witness :
    (r8sample.matched = true ↔ jsToLower r8sample.derived = jsToLower c1AllA) ∧
    r8sample.expected = jsToLower c1AllA ∧
    r8sample.metadataHash = hexEncBytes (sha256 (utf8Bytes (serJson tmNS))) ∧
    r8sample.derived =
      deriveColorId (p2cBytesOf tmNS genPB) (jsToLower (strTakeChars 2 c1AllA)) ∧
    r8sample.p2cPubkey = hexEncBytes (p2cBytesOf tmNS genPB) :=
  c8_verification_result_spec tmNS genPB c1AllA r8sample (by rfl)

end TokenRegistry
